import Mathlib

/-!
A shallow embedding of the core of an embedded vector database and proofs
about it. The embedding covers: the KD-tree exact nearest-neighbour index
(src/src/core/kd_tree.cpp), the facade mutations, batch operations, query
cache and similarity search (src/src/core/vector_database.cpp,
src/src/features/query_cache.cpp), WAL replay and the snapshot file format
(src/src/features/atomic_persistence.cpp), commit-log sequence numbering and
rotation (src/src/features/commit_log.cpp), and the recovery state machine
(src/src/features/recovery_state_machine.cpp).

Modelling conventions: f32 values are idealized as rationals (no NaN exists
in the model, so the facade's NaN check has no analogue); std::unordered_map
is modelled as an association list whose iteration order is the list order;
the snapshot byte stream is modelled as a stream of typed scalars, one token
per write/read call of the source; a WAL append that fails at the I/O layer
is modelled by a boolean outcome passed to the operation. Auto-checkpointing
is modelled as disabled (checkpoint_trigger_ops infinite), matching the
"no intervening snapshot" hypotheses of the durability claims; a checkpoint
only writes a snapshot file and rotates the WAL, so it does not affect the
in-memory maps or cache that the other claims speak about.
-/

namespace VDB

/-- Vectors: fixed-length sequences of f32, idealized as rationals. -/
abbrev Vec := List ℚ

/-- Lookup in an association list, mirroring std::unordered_map::find. -/
def mapFind {α : Type} : List (String × α) → String → Option α
  | [], _ => none
  | (k1, v) :: t, k => if k1 = k then some v else mapFind t k

/-- Overwrite-or-append, mirroring assignment through
std::unordered_map::operator[]. -/
def mapSet {α : Type} : List (String × α) → String → α → List (String × α)
  | [], k, v => [(k, v)]
  | (k1, v1) :: t, k, v => if k1 = k then (k, v) :: t else (k1, v1) :: mapSet t k v

/-- Erase a key, mirroring std::unordered_map::erase. -/
def mapErase {α : Type} : List (String × α) → String → List (String × α)
  | [], _ => []
  | (k1, v1) :: t, k => if k1 = k then mapErase t k else (k1, v1) :: mapErase t k

/-- Insert-if-absent, mirroring std::unordered_map::emplace (which does not
overwrite an existing key). -/
def emplace {α : Type} (m : List (String × α)) (k : String) (v : α) :
    List (String × α) :=
  if (mapFind m k).isSome then m else m ++ [(k, v)]

/-- The keys of an association list are pairwise distinct (the invariant of
std::unordered_map). -/
def keysNodup {α : Type} (m : List (String × α)) : Prop :=
  (m.map Prod.fst).Nodup

instance {α : Type} (m : List (String × α)) : Decidable (keysNodup m) := by
  unfold keysNodup; infer_instance

/-- Absolute value on the idealized floats (std::abs). -/
def ratAbs (q : ℚ) : ℚ := if q < 0 then -q else q

/-- Modelled from the spec: the implementations of the DistanceMetric
subclasses are declared in src/src/utils/distance_metrics.hpp but are not
under src/; section 4.1 of the spec defines the Manhattan variant as the sum
of absolute coordinate differences. -/
def manhattan : Vec → Vec → ℚ
  | [], _ => 0
  | _, [] => 0
  | a :: as, b :: bs => ratAbs (a - b) + manhattan as bs

/-- A KD-tree node (KDTree::Node): stored vector, key, children. The split
dimension is recomputed as depth mod dims during descent, exactly as the
source passes `depth` down its recursions. -/
inductive KDNode where
  | leaf : KDNode
  | node (vec : Vec) (key : String) (left right : KDNode) : KDNode
deriving DecidableEq

/-- The KDTree object: root plus its private key-to-vector map
(KDTree::vectorMap). The temporarily-removed set is threaded through the
search functions, as the source mutates it only inside nearestNeighbors. -/
structure KDTreeS where
  root : KDNode
  kvmap : List (String × Vec)
deriving DecidableEq

/-- KDTree::insert_recursive: walk left when v[depth mod dims] is strictly
below the node's component, otherwise right; attach as leaf. -/
def kdInsertNode (dims : Nat) : KDNode → Vec → String → Nat → KDNode
  | .leaf, v, k, _ => .node v k .leaf .leaf
  | .node nv nk l r, v, k, depth =>
      if v.getD (depth % dims) 0 < nv.getD (depth % dims) 0 then
        .node nv nk (kdInsertNode dims l v k (depth + 1)) r
      else
        .node nv nk l (kdInsertNode dims r v k (depth + 1))

/-- KDTree::insert: record the vector in vectorMap, then insert recursively. -/
def kdTreeInsert (dims : Nat) (t : KDTreeS) (v : Vec) (k : String) : KDTreeS :=
  { root := kdInsertNode dims t.root v k 0, kvmap := mapSet t.kvmap k v }

/-- KDTree::nearest_neighbor_recursive. Faithful to the source: a node whose
key is in the temporarily-removed set returns immediately (pruning its whole
subtree), and the far child is visited only when the squared coordinate gap
is below the unsquared best distance (`delta * delta < best_distance`). -/
def nnRec (dist : Vec → Vec → ℚ) (dims : Nat) (removed : List String) (q : Vec) :
    KDNode → String × ℚ → Nat → String × ℚ
  | .leaf, best, _ => best
  | .node nv nk l r, best, depth =>
      if nk ∈ removed then best
      else
        let d := dist q nv
        let best1 := if d < best.2 then (nk, d) else best
        let delta := q.getD (depth % dims) 0 - nv.getD (depth % dims) 0
        if delta < 0 then
          let best2 := nnRec dist dims removed q l best1 (depth + 1)
          if delta * delta < best2.2 then nnRec dist dims removed q r best2 (depth + 1)
          else best2
        else
          let best2 := nnRec dist dims removed q r best1 (depth + 1)
          if delta * delta < best2.2 then nnRec dist dims removed q l best2 (depth + 1)
          else best2

/-- KDTree::nearest_neighbor: on an empty tree return the empty key;
otherwise initialize the best pair from the root (without consulting the
temporarily-removed set, as the source does) and descend. -/
def nearestNeighbor (dist : Vec → Vec → ℚ) (dims : Nat) (removed : List String)
    (t : KDNode) (q : Vec) : String :=
  match t with
  | .leaf => ""
  | .node nv nk _ _ => (nnRec dist dims removed q t (nk, dist q nv) 0).1

/-- The loop body of KDTree::nearestNeighbors: k sequential 1-NN calls, each
followed by adding the found key to the temporarily-removed set; the found
key's distance is recomputed through getVector (the vectorMap). There is no
bound on the number of live keys, exactly as in the source. -/
def kdNNGo (dist : Vec → Vec → ℚ) (dims : Nat) (t : KDTreeS) (q : Vec) :
    Nat → List String → List (String × ℚ)
  | 0, _ => []
  | i + 1, removed =>
      let nk := nearestNeighbor dist dims removed t.root q
      let d := dist q ((mapFind t.kvmap nk).getD [])
      (nk, d) :: kdNNGo dist dims t q i (nk :: removed)

/-- KDTree::nearestNeighbors (the temporarily-removed set starts empty and is
restored after the loop, so it does not appear in the result). -/
def kdNearestNeighbors (dist : Vec → Vec → ℚ) (dims : Nat) (t : KDTreeS)
    (q : Vec) (k : Nat) : List (String × ℚ) :=
  kdNNGo dist dims t q k []

/-- A WAL record as appended by the facade through AtomicPersistence
(CommitLog::logInsert / logUpdate / logDelete payloads). -/
inductive WalRec where
  | ins (key : String) (v : Vec) (meta : String)
  | upd (key : String) (v : Vec) (meta : String)
  | del (key : String)
deriving DecidableEq

/-- The in-memory state owned by the facade VectorDatabase that the claims
speak about: the authoritative maps, the KD-tree, the query cache (most
recently used at the head), the WAL contents, the dimension and the ready
flag. The LSH/HNSW indexes, statistics counters and GPU buffer are omitted:
no claim depends on them. -/
structure DBState where
  vmap : List (String × Vec)
  mmap : List (String × String)
  kd : KDTreeS
  cache : List (Vec × List (String × ℚ))
  cap : Nat
  wal : List WalRec
  dims : Nat
  ready : Bool
deriving DecidableEq

/-- Errors thrown by the facade (std::runtime_error for a use before
initialize, std::invalid_argument for a dimension mismatch). -/
inductive DBErr where
  | notInitialized
  | dimensionMismatch
deriving DecidableEq

/-- QueryCache::get without the LRU bookkeeping result: find the results for
a query vector. -/
def cacheGet : List (Vec × List (String × ℚ)) → Vec → Option (List (String × ℚ))
  | [], _ => none
  | (qv, r) :: t, q => if qv = q then some r else cacheGet t q

/-- Remove a query's entry from the cache list (used for move-to-front). -/
def cacheRemove : List (Vec × List (String × ℚ)) → Vec →
    List (Vec × List (String × ℚ))
  | [], _ => []
  | (qv, r) :: t, q => if qv = q then cacheRemove t q else (qv, r) :: cacheRemove t q

/-- QueryCache::put: update-and-move-to-front when present; otherwise evict
the least recently used entry when at capacity and insert at the front. -/
def cachePut (cap : Nat) (c : List (Vec × List (String × ℚ))) (q : Vec)
    (res : List (String × ℚ)) : List (Vec × List (String × ℚ)) :=
  match cacheGet c q with
  | some _ => (q, res) :: cacheRemove c q
  | none => if cap ≤ c.length then (q, res) :: c.dropLast else (q, res) :: c

/-- VectorDatabase::insert. Mirrors the source order: mutate the maps and the
KD-tree, clear the cache, then append to the WAL; when the append fails, the
key is erased from both maps (the source's rollback) and false is returned.
The walOk argument is the outcome of the AtomicPersistence append. -/
def dbInsert (s : DBState) (v : Vec) (k : String) (meta : String) (walOk : Bool) :
    Except DBErr (Bool × DBState) :=
  if s.ready = false then .error .notInitialized
  else if v.length ≠ s.dims then .error .dimensionMismatch
  else
    let s1 : DBState :=
      { s with vmap := mapSet s.vmap k v,
               mmap := if meta ≠ "" then mapSet s.mmap k meta else s.mmap,
               kd := kdTreeInsert s.dims s.kd v k,
               cache := [] }
    if walOk then .ok (true, { s1 with wal := s1.wal ++ [WalRec.ins k v meta] })
    else .ok (false, { s1 with vmap := mapErase s1.vmap k, mmap := mapErase s1.mmap k })

/-- VectorDatabase::update. Mirrors the source: a missing key returns false
without side effects; otherwise the maps are mutated, the vector reinserted
into the KD-tree and the cache cleared; when the WAL append fails the source
returns false WITHOUT restoring the previous value (its comment reads: a
real rollback would restore previous value). -/
def dbUpdate (s : DBState) (v : Vec) (k : String) (meta : String) (walOk : Bool) :
    Except DBErr (Bool × DBState) :=
  if s.ready = false then .error .notInitialized
  else if mapFind s.vmap k = none then .ok (false, s)
  else if v.length ≠ s.dims then .error .dimensionMismatch
  else
    let s1 : DBState :=
      { s with vmap := mapSet s.vmap k v,
               mmap := if meta ≠ "" then mapSet s.mmap k meta else s.mmap,
               kd := kdTreeInsert s.dims s.kd v k,
               cache := [] }
    if walOk then .ok (true, { s1 with wal := s1.wal ++ [WalRec.upd k v meta] })
    else .ok (false, s1)

/-- VectorDatabase::remove. A missing key returns false; otherwise both map
entries are erased and the cache cleared; when the WAL append fails the
source returns false without restoring the erased entries. -/
def dbRemove (s : DBState) (k : String) (walOk : Bool) :
    Except DBErr (Bool × DBState) :=
  if s.ready = false then .error .notInitialized
  else if mapFind s.vmap k = none then .ok (false, s)
  else
    let s1 : DBState :=
      { s with vmap := mapErase s.vmap k, mmap := mapErase s.mmap k, cache := [] }
    if walOk then .ok (true, { s1 with wal := s1.wal ++ [WalRec.del k] })
    else .ok (false, s1)

/-- VectorDatabase::similaritySearch on the exact (KD-tree) path: empty map
returns the empty list without touching cache or index; otherwise consult
the cache (hit moves the entry to the front), and on a miss run the KD-tree
search and store the result. -/
def dbSimilaritySearch (dist : Vec → Vec → ℚ) (s : DBState) (q : Vec) (k : Nat) :
    Except DBErr (List (String × ℚ) × DBState) :=
  if s.ready = false then .error .notInitialized
  else if q.length ≠ s.dims then .error .dimensionMismatch
  else if s.vmap = [] then .ok ([], s)
  else
    match cacheGet s.cache q with
    | some res => .ok (res, { s with cache := (q, res) :: cacheRemove s.cache q })
    | none =>
        let res := kdNearestNeighbors dist s.dims s.kd q k
        .ok (res, { s with cache := cachePut s.cap s.cache q res })

/-- Pair up the keys/vectors/metadata arrays of a facade batch call; a
missing metadata entry defaults to the empty string, as in the source. -/
def zipKVM : List String → List Vec → List String → List (String × Vec × String)
  | k :: ks, v :: vs, m :: ms => (k, v, m) :: zipKVM ks vs ms
  | k :: ks, v :: vs, [] => (k, v, "") :: zipKVM ks vs []
  | _, _, _ => []

/-- The loop of VectorDatabase::batchInsert: skip keys already present;
break with failure on a dimension mismatch; mutate maps and KD-tree, then
append to the WAL; on an append failure erase the key from both maps (the
only rollback the source performs) and stop. Returns (success, committed,
state). The batch paths never clear the query cache, exactly as in the
source. -/
def batchInsertGo (s : DBState) :
    List (String × Vec × String) → List Bool → Bool × Nat × DBState
  | [], _ => (true, 0, s)
  | (k, v, m) :: rest, oks =>
      if (mapFind s.vmap k).isSome then batchInsertGo s rest oks
      else if v.length ≠ s.dims then (false, 0, s)
      else
        let s1 : DBState :=
          { s with vmap := mapSet s.vmap k v,
                   mmap := if m ≠ "" then mapSet s.mmap k m else s.mmap,
                   kd := kdTreeInsert s.dims s.kd v k }
        if oks.headD true then
          let s2 := { s1 with wal := s1.wal ++ [WalRec.ins k v m] }
          let r := batchInsertGo s2 rest oks.tail
          (r.1, r.2.1 + 1, r.2.2)
        else
          (false, 0, { s1 with vmap := mapErase s1.vmap k, mmap := mapErase s1.mmap k })

/-- VectorDatabase::batchInsert: size-mismatch between keys and vectors
fails up front; otherwise run the loop. -/
def dbBatchInsert (s : DBState) (keys : List String) (vecs : List Vec)
    (metas : List String) (walOks : List Bool) : Bool × Nat × DBState :=
  if keys.length ≠ vecs.length then (false, 0, s)
  else batchInsertGo s (zipKVM keys vecs metas) walOks

/-- The loop of VectorDatabase::batchUpdate: skip missing keys; break with
failure on a dimension mismatch; mutate maps and KD-tree, then append to
the WAL; on an append failure stop WITHOUT rolling back the in-memory
mutation (the source has no erase/restore on this path). -/
def batchUpdateGo (s : DBState) :
    List (String × Vec × String) → List Bool → Bool × Nat × DBState
  | [], _ => (true, 0, s)
  | (k, v, m) :: rest, oks =>
      if (mapFind s.vmap k).isSome = false then batchUpdateGo s rest oks
      else if v.length ≠ s.dims then (false, 0, s)
      else
        let s1 : DBState :=
          { s with vmap := mapSet s.vmap k v,
                   mmap := if m ≠ "" then mapSet s.mmap k m else s.mmap,
                   kd := kdTreeInsert s.dims s.kd v k }
        if oks.headD true then
          let s2 := { s1 with wal := s1.wal ++ [WalRec.upd k v m] }
          let r := batchUpdateGo s2 rest oks.tail
          (r.1, r.2.1 + 1, r.2.2)
        else (false, 0, s1)

/-- VectorDatabase::batchUpdate. -/
def dbBatchUpdate (s : DBState) (keys : List String) (vecs : List Vec)
    (metas : List String) (walOks : List Bool) : Bool × Nat × DBState :=
  if keys.length ≠ vecs.length then (false, 0, s)
  else batchUpdateGo s (zipKVM keys vecs metas) walOks

/-- The loop of VectorDatabase::batchDelete: skip missing keys; erase both
map entries, then append to the WAL; on an append failure stop WITHOUT
restoring the erased entries (the source has no rollback on this path). -/
def batchDeleteGo (s : DBState) : List String → List Bool → Bool × Nat × DBState
  | [], _ => (true, 0, s)
  | k :: rest, oks =>
      if (mapFind s.vmap k).isSome = false then batchDeleteGo s rest oks
      else
        let s1 : DBState :=
          { s with vmap := mapErase s.vmap k, mmap := mapErase s.mmap k }
        if oks.headD true then
          let s2 := { s1 with wal := s1.wal ++ [WalRec.del k] }
          let r := batchDeleteGo s2 rest oks.tail
          (r.1, r.2.1 + 1, r.2.2)
        else (false, 0, s1)

/-- VectorDatabase::batchDelete. -/
def dbBatchDelete (s : DBState) (keys : List String) (walOks : List Bool) :
    Bool × Nat × DBState :=
  batchDeleteGo s keys walOks

/-- One step of AtomicPersistence::replayAll: INSERT and UPDATE records set
the vector and, when the record's metadata is empty, ERASE the metadata
entry (otherwise set it); DELETE erases both. -/
def replayStep (vm : List (String × Vec)) (mm : List (String × String)) :
    WalRec → List (String × Vec) × List (String × String)
  | WalRec.ins k v m => (mapSet vm k v, if m = "" then mapErase mm k else mapSet mm k m)
  | WalRec.upd k v m => (mapSet vm k v, if m = "" then mapErase mm k else mapSet mm k m)
  | WalRec.del k => (mapErase vm k, mapErase mm k)

/-- AtomicPersistence::replayAll restricted to the record list: in the
claims' setting every record is intact (valid checksum) and has sequence at
least since_seq, so the source's filtering is the identity and replay is a
left fold of replayStep over the records in order. -/
def replayAll (recs : List WalRec) (vm : List (String × Vec))
    (mm : List (String × String)) : List (String × Vec) × List (String × String) :=
  match recs with
  | [] => (vm, mm)
  | r :: t => let p := replayStep vm mm r; replayAll t p.1 p.2

/-- The state of a freshly initialized database with no prior on-disk state:
empty maps, empty KD-tree, empty cache and WAL, ready flag set. -/
def dbInit (dims cap : Nat) : DBState :=
  { vmap := [], mmap := [], kd := { root := .leaf, kvmap := [] }, cache := [],
    cap := cap, wal := [], dims := dims, ready := true }

/-- Extract the boolean return value of a facade mutation (false when an
exception was thrown, which never happens at the call sites below). -/
def okFlag : Except DBErr (Bool × DBState) → Bool
  | .ok (b, _) => b
  | .error _ => false

/-- Extract the post-state of a facade mutation, with a fallback for the
exception case (never taken at the call sites below). -/
def okState (r : Except DBErr (Bool × DBState)) (dflt : DBState) : DBState :=
  match r with
  | .ok (_, s) => s
  | .error _ => dflt

/-- Extract the result list of a similarity search. -/
def okResults : Except DBErr (List (String × ℚ) × DBState) → List (String × ℚ)
  | .ok (l, _) => l
  | .error _ => []

/-- Extract the post-state of a similarity search. -/
def okSearchState (r : Except DBErr (List (String × ℚ) × DBState))
    (dflt : DBState) : DBState :=
  match r with
  | .ok (_, s) => s
  | .error _ => dflt

/-! Concrete database runs used by the claim theorems below. Every state is
reached from a freshly initialized database by successful facade calls. -/

/-- Fresh 2-dimensional exact database. -/
def c1_s0 : DBState := dbInit 2 16

/-- After inserting key r at (0, 5): r is the KD-tree root, split on
dimension 0. -/
def c1_s1 : DBState := okState (dbInsert c1_s0 [0, 5] "r" "" true) c1_s0

/-- After inserting key A at (3, 3): right child of the root. -/
def c1_s2 : DBState := okState (dbInsert c1_s1 [3, 3] "A" "" true) c1_s1

/-- After inserting key B at (-1, 0): left child of the root. -/
def c1_s3 : DBState := okState (dbInsert c1_s2 [-1, 0] "B" "" true) c1_s2

/-- C1. Exact-search correctness fails on the code. For the query (2, 0) the
Manhattan distances are: r at 7, A at 4, B at 3, so the nearest key is B.
The descent visits the root (best 7, gap delta = 2 to the split plane),
improves to (A, 4) in the right subtree, and then tests the far (left)
subtree with the source's condition delta * delta < best_distance, that is
4 < 4, which fails — although the spec's condition (gap squared below best
squared, 4 < 16) holds — so B is never visited and the search returns A at
distance 4 instead of the true nearest B at distance 3. -/
theorem c1_exact_search_failing :
    okResults (dbSimilaritySearch manhattan c1_s3 [2, 0] 1) = [("A", 4)] ∧
    mapFind c1_s3.vmap "B" = some [-1, 0] ∧
    manhattan [2, 0] [-1, 0] = 3 ∧ (3 : ℚ) < 4 := by
  refine ⟨?_, ?_, ?_, ?_⟩ <;>
    norm_num [c1_s3, c1_s2, c1_s1, c1_s0, dbInit, dbInsert, okState, okResults,
      dbSimilaritySearch, kdTreeInsert, kdInsertNode, kdNearestNeighbors, kdNNGo,
      nearestNeighbor, nnRec, manhattan, ratAbs, mapSet, mapFind, cacheGet,
      cachePut, cacheRemove, List.getD] <;>
    decide

/-- State with the single key a stored at vector 0 (dimension 1). -/
def c2_s1 : DBState := okState (dbInsert (dbInit 1 16) [0] "a" "" true) (dbInit 1 16)

/-- C2 counterexample. Inserting with the existing key a does not fail: the
call returns true and the vector map now holds the new vector 1 for a, so
the claim (duplicate insert fails and leaves the maps unchanged) is false at
this input. -/
theorem c2_counterexample :
    okFlag (dbInsert c2_s1 [1] "a" "m" true) = true ∧
    mapFind c2_s1.vmap "a" = some [0] ∧
    mapFind (okState (dbInsert c2_s1 [1] "a" "m" true) c2_s1).vmap "a" = some [1] :=
  ⟨rfl, rfl, rfl⟩

/-- State with the single key x stored at vector 1 (dimension 1). -/
def c3_s1 : DBState := okState (dbInsert (dbInit 1 16) [1] "x" "" true) (dbInit 1 16)

/-- The facade batchDelete of x whose WAL append fails. -/
def c3_res : Bool × Nat × DBState := dbBatchDelete c3_s1 ["x"] [false]

/-- C3. Facade batch atomicity fails on the code: when the WAL append of the
first (j = 1) operation of a batchDelete fails, the call reports failure
with zero operations committed, yet the key has already been erased from the
vector map and the WAL is unchanged — the failing operation is visible in
the in-memory maps but absent from the WAL, and no rollback restores it
(batchUpdate behaves the same; only batchInsert erases on failure). -/
theorem c3_batch_delete_no_rollback :
    c3_res.1 = false ∧ c3_res.2.1 = 0 ∧
    mapFind c3_s1.vmap "x" = some [1] ∧
    mapFind c3_res.2.2.vmap "x" = none ∧
    c3_res.2.2.wal = c3_s1.wal :=
  ⟨rfl, rfl, rfl, rfl, rfl⟩

/-- State with the single key a stored at vector 0 (dimension 1). -/
def c4_s1 : DBState := okState (dbInsert (dbInit 1 16) [0] "a" "" true) (dbInit 1 16)

/-- C4. Rollback on WAL failure fails on the code for update: when the WAL
append of update(a, 7) fails, the call reports false but the vector map
keeps the new value 7 instead of being restored to the pre-state value 0
(the WAL is unchanged, so memory and log now disagree); remove behaves the
same, and the source marks both spots with a comment that a real rollback
would restore the previous value. -/
theorem c4_update_no_rollback :
    mapFind c4_s1.vmap "a" = some [0] ∧
    okFlag (dbUpdate c4_s1 [7] "a" "" false) = false ∧
    mapFind (okState (dbUpdate c4_s1 [7] "a" "" false) c4_s1).vmap "a" = some [7] ∧
    (okState (dbUpdate c4_s1 [7] "a" "" false) c4_s1).wal = c4_s1.wal :=
  ⟨rfl, rfl, rfl, rfl⟩

/-- State after the successful insert(a, 0, metadata m). -/
def c5_s1 : DBState := okState (dbInsert (dbInit 1 16) [0] "a" "m" true) (dbInit 1 16)

/-- State after the successful update(a, 0, empty metadata). -/
def c5_s2 : DBState := okState (dbUpdate c5_s1 [0] "a" "" true) c5_s1

/-- C5. WAL replay does not equal the live effect: the live update with
empty metadata leaves the existing metadata m for a in place (the facade
only assigns when the metadata argument is non-empty), but replaying the
two resulting WAL records onto empty maps ERASES the metadata for a (replay
erases on an empty metadata payload), so the replayed metadata map differs
from the live one. Both mutations succeeded and no snapshot intervened. -/
theorem c5_replay_divergence :
    okFlag (dbInsert (dbInit 1 16) [0] "a" "m" true) = true ∧
    okFlag (dbUpdate c5_s1 [0] "a" "" true) = true ∧
    c5_s2.wal = [WalRec.ins "a" [0] "m", WalRec.upd "a" [0] ""] ∧
    mapFind c5_s2.mmap "a" = some "m" ∧
    mapFind (replayAll c5_s2.wal [] []).2 "a" = none :=
  ⟨rfl, rfl, rfl, rfl, rfl⟩

/-- State with the single key a stored at vector 10 (dimension 1). -/
def c6_s1 : DBState := okState (dbInsert (dbInit 1 16) [10] "a" "" true) (dbInit 1 16)

/-- State after similaritySearch for the query 0 cached its result. -/
def c6_s2 : DBState := okSearchState (dbSimilaritySearch manhattan c6_s1 [0] 1) c6_s1

/-- A successful (fully committed) facade batchInsert of key b at vector 1. -/
def c6_batch : Bool × Nat × DBState := dbBatchInsert c6_s2 ["b"] [[1]] [] [true]

/-- C6. Cache coherence fails on the code for batches: the committed
batchInsert leaves the query cache untouched (no batch path calls
QueryCache::clear), so the next similaritySearch for the previously cached
query 0 is a cache HIT returning the stale result (a, 10), even though the
batch stored the strictly closer key b at distance 1. -/
theorem c6_batch_stale_cache :
    c6_batch.1 = true ∧ c6_batch.2.1 = 1 ∧
    c6_batch.2.2.cache = c6_s2.cache ∧
    mapFind c6_batch.2.2.vmap "b" = some [1] ∧
    okResults (dbSimilaritySearch manhattan c6_batch.2.2 [0] 1) = [("a", 10)] ∧
    manhattan [0] [1] = 1 ∧ (1 : ℚ) < 10 := by
  refine ⟨?_, ?_, ?_, ?_, ?_, ?_, ?_⟩ <;>
    norm_num [c6_batch, c6_s2, c6_s1, dbInit, dbInsert, dbBatchInsert,
      batchInsertGo, zipKVM, okState, okSearchState, okResults,
      dbSimilaritySearch, kdTreeInsert, kdInsertNode, kdNearestNeighbors, kdNNGo,
      nearestNeighbor, nnRec, manhattan, ratAbs, mapSet, mapFind, cacheGet,
      cachePut, cacheRemove, List.getD] <;>
    decide

/-- State with the single key a stored at vector 0 (dimension 1). -/
def c7_s1 : DBState := okState (dbInsert (dbInit 1 16) [0] "a" "" true) (dbInit 1 16)

/-- C7. The k-bound fails on the code: with one stored vector, a search with
k = 2 returns TWO results (the same key twice) instead of at most
min(k, number of stored vectors) = 1 — the KD-tree loop runs k times
unconditionally, and once every key is temporarily removed the 1-NN call
still returns the root's key, duplicating it. -/
theorem c7_kbound_violation :
    okResults (dbSimilaritySearch manhattan c7_s1 [0] 2) = [("a", 0), ("a", 0)] ∧
    c7_s1.vmap.length = 1 := by
  refine ⟨?_, ?_⟩ <;>
    norm_num [c7_s1, dbInit, dbInsert, okState, okResults,
      dbSimilaritySearch, kdTreeInsert, kdInsertNode, kdNearestNeighbors, kdNNGo,
      nearestNeighbor, nnRec, manhattan, ratAbs, mapSet, mapFind, cacheGet,
      cachePut, cacheRemove, List.getD]

/-- Looking up a key just set finds the new value. -/
theorem mapFind_mapSet_self {α : Type} (m : List (String × α)) (k : String) (v : α) :
    mapFind (mapSet m k v) k = some v := by
  induction m with
  | nil => simp [mapSet, mapFind]
  | cons kv t ih =>
      obtain ⟨k1, v1⟩ := kv
      by_cases hk : k1 = k
      · simp [mapSet, hk, mapFind]
      · simp [mapSet, hk, mapFind, ih]

/-- Setting one key leaves lookups of other keys unchanged. -/
theorem mapFind_mapSet_ne {α : Type} (m : List (String × α)) {k k1 : String}
    (hne : k1 ≠ k) (v : α) : mapFind (mapSet m k v) k1 = mapFind m k1 := by
  have hne1 : k ≠ k1 := Ne.symm hne
  induction m with
  | nil => simp [mapSet, mapFind, hne1]
  | cons kv t ih =>
      obtain ⟨k2, v2⟩ := kv
      by_cases hk : k2 = k
      · subst hk
        simp [mapSet, mapFind, hne1]
      · simp [mapSet, hk, mapFind, ih]

/-- C2 amended: inserting with an existing key does not fail. The call
returns true, overwrites the vector-map entry for the key, appends a fresh
INSERT record to the WAL (never an UPDATE record), and leaves every other
key's entry unchanged. -/
theorem c2_insert_overwrites (s : DBState) (v : Vec) (k : String) (meta : String)
    (hready : s.ready = true) (hdim : v.length = s.dims)
    (_hdup : (mapFind s.vmap k).isSome = true) :
    okFlag (dbInsert s v k meta true) = true ∧
    mapFind (okState (dbInsert s v k meta true) s).vmap k = some v ∧
    (okState (dbInsert s v k meta true) s).wal = s.wal ++ [WalRec.ins k v meta] ∧
    ∀ k1, k1 ≠ k →
      mapFind (okState (dbInsert s v k meta true) s).vmap k1 = mapFind s.vmap k1 := by
  refine ⟨?_, ?_, ?_, ?_⟩
  · simp [dbInsert, hready, hdim, okFlag]
  · simp [dbInsert, hready, hdim, okState, mapFind_mapSet_self]
  · simp [dbInsert, hready, hdim, okState]
  · intro k1 hne
    simp only [dbInsert, hready, hdim, okState]
    simp [mapFind_mapSet_ne _ hne]

/-- Witness for the amended C2 theorem at the concrete duplicate insert of
key a. -/
theorem c2_insert_overwrites_witness :
    okFlag (dbInsert c2_s1 [1] "a" "m" true) = true ∧
    mapFind (okState (dbInsert c2_s1 [1] "a" "m" true) c2_s1).vmap "a" = some [1] ∧
    (okState (dbInsert c2_s1 [1] "a" "m" true) c2_s1).wal
      = c2_s1.wal ++ [WalRec.ins "a" [1] "m"] ∧
    mapFind (okState (dbInsert c2_s1 [1] "a" "m" true) c2_s1).vmap "zz"
      = mapFind c2_s1.vmap "zz" := by
  have h := c2_insert_overwrites c2_s1 [1] "a" "m" (by rfl) (by rfl) (by rfl)
  exact ⟨h.1, h.2.1, h.2.2.1, h.2.2.2 "zz" (by decide)⟩

/-! The CommitLog sequence-numbering model (src/src/features/commit_log.cpp).
Only the fields that sequence numbering depends on are kept: the next
sequence number, the current file size, the rotation bound and the trace of
events (appends with their sequence number, and rotations). File contents
and names are not needed by the claim. -/

/-- An observable commit-log event: a record append carrying its sequence
number, or a log rotation (requested or automatic). -/
inductive WalEvt where
  | app (seq : Nat)
  | rot
deriving DecidableEq

/-- The CommitLog state: next_sequence_number (starts at 1 in the
constructor), current_log_size, max_log_size, and the event trace. -/
structure CLog where
  next_seq : Nat
  cur_size : Nat
  max_size : Nat
  events : List WalEvt
deriving DecidableEq

/-- The serialized size of a record header: 8 (timestamp) + 4 (type) +
8 (sequence) + 4 (checksum) + 4 (data_length) bytes. -/
def entryHeaderSize : Nat := 28

/-- CommitLog::rotateLog: close the file, INCREMENT next_sequence_number,
open the file named after the incremented sequence, reset the size. The
increment is the modelled behaviour under test: rotation consumes a
sequence number. -/
def clRotate (c : CLog) : CLog :=
  { c with next_seq := c.next_seq + 1, cur_size := 0,
           events := c.events ++ [WalEvt.rot] }

/-- A logInsert / logUpdate / logDelete / logCheckpoint / logCommit call:
the record takes sequence next_sequence_number which is post-incremented,
then writeEntry appends the serialized record and rotates when the file
size reaches max_log_size. -/
def clAppend (c : CLog) (dataLen : Nat) : CLog :=
  let seq := c.next_seq
  let c1 : CLog := { c with next_seq := c.next_seq + 1 }
  let c2 : CLog := { c1 with cur_size := c1.cur_size + entryHeaderSize + dataLen,
                             events := c1.events ++ [WalEvt.app seq] }
  if c2.max_size ≤ c2.cur_size then clRotate c2 else c2

/-- A commit-log operation issued by a client: append a record with a given
payload length, or request rotation (as the checkpoint path does). -/
inductive ClOp where
  | append (dataLen : Nat)
  | rotate
deriving DecidableEq

/-- Run one operation. -/
def clStep (c : CLog) : ClOp → CLog
  | .append n => clAppend c n
  | .rotate => clRotate c

/-- Run a list of operations in order. -/
def clRun (c : CLog) : List ClOp → CLog
  | [] => c
  | op :: t => clRun (clStep c op) t

/-- The CommitLog constructor state: next_sequence_number = 1, empty file. -/
def clInit (maxSize : Nat) : CLog :=
  { next_seq := 1, cur_size := 0, max_size := maxSize, events := [] }

/-- Correct numbering relative to a base b: reading the event trace in
order, an append carries exactly the running counter, and EVERY event
(append or rotation) advances the counter by one. This is the amended
numbering law: each rotation consumes one sequence number, and the
numbering is never reset, so append sequence numbers are strictly
increasing across rotations with a gap of one per rotation. -/
def Good : Nat → List WalEvt → Prop
  | _, [] => True
  | b, WalEvt.app n :: t => n = b ∧ Good (b + 1) t
  | b, WalEvt.rot :: t => Good (b + 1) t

/-- Goodness splits over concatenation, advancing the base by the length of
the first part. -/
theorem good_append (l1 l2 : List WalEvt) (b : Nat) :
    Good b (l1 ++ l2) ↔ (Good b l1 ∧ Good (b + l1.length) l2) := by
  induction l1 generalizing b with
  | nil => simp [Good]
  | cons e t ih =>
      cases e with
      | app n =>
          have hlen : b + 1 + t.length = b + (t.length + 1) := by omega
          simp [Good, ih, List.length_cons, hlen, and_assoc]
      | rot =>
          have hlen : b + 1 + t.length = b + (t.length + 1) := by omega
          simp [Good, ih, List.length_cons, hlen]

/-- The run invariant: if the trace so far is correctly numbered from base b
and next_seq is b plus the trace length, both facts persist under any
operation sequence. -/
theorem clRun_invariant (ops : List ClOp) :
    ∀ (c : CLog) (b : Nat), Good b c.events → c.next_seq = b + c.events.length →
      Good b (clRun c ops).events ∧
      (clRun c ops).next_seq = b + (clRun c ops).events.length := by
  induction ops with
  | nil => intro c b h1 h2; exact ⟨h1, h2⟩
  | cons op t ih =>
      intro c b h1 h2
      have hstep : Good b (clStep c op).events ∧
          (clStep c op).next_seq = b + (clStep c op).events.length := by
        cases op with
        | rotate =>
            constructor
            · simp only [clStep, clRotate]
              rw [good_append]
              exact ⟨h1, by simp [Good]⟩
            · simp [clStep, clRotate, h2, List.length_append]
              omega
        | append n =>
            simp only [clStep, clAppend]
            split
            · constructor
              · simp only [clRotate]
                rw [good_append]
                refine ⟨?_, by simp [Good]⟩
                rw [good_append]
                exact ⟨h1, by simp [Good, h2]⟩
              · simp [clRotate, h2, List.length_append]
                omega
            · constructor
              · rw [good_append]
                exact ⟨h1, by simp [Good, h2]⟩
              · simp [h2, List.length_append]
                omega
      exact ih (clStep c op) b hstep.1 hstep.2

/-- C9 amended: for every run of the commit log from its constructor state
and every sequence of appends and rotations, the trace of events is
correctly numbered from the initial sequence 1: the nth successful append
carries sequence = initial sequence + (number of appends before it) +
(number of rotations before it) — each rotation consumes exactly one
sequence number — and next_sequence_number always equals the initial
sequence plus the total number of events, so the numbering continues,
strictly increasing and never reset, across rotations. -/
theorem c9_rotation_consumes_sequence (maxSize : Nat) (ops : List ClOp) :
    Good 1 ((clRun (clInit maxSize) ops).events) ∧
    (clRun (clInit maxSize) ops).next_seq
      = 1 + ((clRun (clInit maxSize) ops).events).length :=
  clRun_invariant ops (clInit maxSize) 1 (by simp [clInit, Good]) (by simp [clInit])

/-- C9 counterexample. Starting from a fresh log (initial sequence 0, first
append numbered 1), the run append-rotate-append produces sequence numbers
1 and 3: the second successful append carries 3, not initial + 2 = 2,
because rotateLog increments next_sequence_number. The claim that rotation
does not consume a sequence number is therefore false at this input. -/
theorem c9_counterexample :
    (clRun (clInit 1000000) [ClOp.append 10, ClOp.rotate, ClOp.append 10]).events
      = [WalEvt.app 1, WalEvt.rot, WalEvt.app 3] ∧
    WalEvt.app 3 ≠ WalEvt.app (0 + 2) :=
  ⟨rfl, by decide⟩

/-! The snapshot file format (AtomicPersistence::saveCheckpointFile and
AtomicPersistence::loadCheckpoint). The byte stream is modelled as a stream
of typed scalars: one token per write call of the writer and per read of
the loader; a zero-length string or vector writes no bytes and therefore no
token, and the corresponding read is skipped, exactly as in the source. -/

/-- A scalar in the snapshot stream. -/
inductive Tok where
  | u32 (n : Nat)
  | u64 (n : Nat)
  | str (s : String)
  | f32s (v : Vec)
deriving DecidableEq

/-- Write a u32 length followed by the string's bytes, skipped when the
length is zero (the writer guards every byte write with the length). -/
def encLenStr (s : String) : List Tok :=
  Tok.u32 s.length :: (if s.length = 0 then [] else [Tok.str s])

/-- Write a u32 dims followed by dims f32 values, skipped when zero. -/
def encLenF32s (v : Vec) : List Tok :=
  Tok.u32 v.length :: (if v.length = 0 then [] else [Tok.f32s v])

/-- One snapshot body entry: key, vector, metadata; the writer looks the
metadata up in the metadata map and writes the empty string when absent. -/
def encEntry (mm : List (String × String)) (kv : String × Vec) : List Tok :=
  encLenStr kv.1 ++ encLenF32s kv.2 ++ encLenStr ((mapFind mm kv.1).getD "")

/-- The snapshot body: entries in map iteration order. -/
def encEntries (mm : List (String × String)) : List (String × Vec) → List Tok
  | [] => []
  | kv :: t => encEntry mm kv ++ encEntries mm t

/-- One entry's contribution to the footer checksum: XOR the key length,
the dimension count and the metadata length into the accumulator. -/
def crcStep (mm : List (String × String)) (c : Nat) (kv : String × Vec) : Nat :=
  c ^^^ kv.1.length ^^^ kv.2.length ^^^ ((mapFind mm kv.1).getD "").length

/-- The footer checksum accumulated over all entries in order. -/
def crcAcc (mm : List (String × String)) : Nat → List (String × Vec) → Nat
  | c, [] => c
  | c, kv :: t => crcAcc mm (crcStep mm c kv) t

/-- AtomicPersistence::saveCheckpointFile: header (magic VDBD, version 1,
WAL sequence, timestamp), entry count, the entries, footer (magic ENDM and
the XOR-fold checksum). -/
def saveCheckpointFile (vm : List (String × Vec)) (mm : List (String × String))
    (seq ts : Nat) : List Tok :=
  [Tok.u32 0x56444244, Tok.u32 1, Tok.u64 seq, Tok.u64 ts, Tok.u64 vm.length]
    ++ encEntries mm vm
    ++ [Tok.u32 0x454E444D, Tok.u32 (crcAcc mm 0 vm)]

/-- Read one u32 from the stream. -/
def readU32 : List Tok → Option (Nat × List Tok)
  | Tok.u32 n :: t => some (n, t)
  | _ => none

/-- Read one u64 from the stream. -/
def readU64 : List Tok → Option (Nat × List Tok)
  | Tok.u64 n :: t => some (n, t)
  | _ => none

/-- Read a u32 length and then that many bytes of string; a zero length
reads no bytes (the loader's read_exact is guarded by the length). -/
def readLenStr (ts : List Tok) : Option (String × List Tok) :=
  match readU32 ts with
  | none => none
  | some (len, ts1) =>
      if len = 0 then some ("", ts1)
      else
        match ts1 with
        | Tok.str s :: t => if s.length = len then some (s, t) else none
        | _ => none

/-- Read a u32 dims and then dims f32 values; zero dims reads nothing. -/
def readLenF32s (ts : List Tok) : Option (Vec × List Tok) :=
  match readU32 ts with
  | none => none
  | some (dims, ts1) =>
      if dims = 0 then some ([], ts1)
      else
        match ts1 with
        | Tok.f32s v :: t => if v.length = dims then some (v, t) else none
        | _ => none

/-- Read one body entry: key, vector, metadata. -/
def decEntry (ts : List Tok) : Option ((String × Vec × String) × List Tok) :=
  match readLenStr ts with
  | none => none
  | some (k, ts1) =>
      match readLenF32s ts1 with
      | none => none
      | some (v, ts2) =>
          match readLenStr ts2 with
          | none => none
          | some (m, ts3) => some ((k, v, m), ts3)

/-- The loader's entry loop: read count entries, inserting each vector with
emplace (no overwrite) and each non-empty metadata with assignment, while
folding the checksum of the lengths read. -/
def decEntries : Nat → List Tok → List (String × Vec) → List (String × String) →
    Nat → Option (List (String × Vec) × List (String × String) × Nat × List Tok)
  | 0, ts, accV, accM, crc => some (accV, accM, crc, ts)
  | n + 1, ts, accV, accM, crc =>
      match decEntry ts with
      | none => none
      | some ((k, v, m), ts1) =>
          decEntries n ts1 (emplace accV k v)
            (if m.length ≠ 0 then mapSet accM k m else accM)
            (crc ^^^ k.length ^^^ v.length ^^^ m.length)

/-- AtomicPersistence::loadCheckpoint: validate magic and version, read the
header sequence and timestamp and the count, read the entries, then
validate the footer magic and compare the checksum read from the file with
the one folded while reading; on success return the maps and the header
sequence. -/
def loadCheckpoint (ts0 : List Tok) :
    Option (List (String × Vec) × List (String × String) × Nat) :=
  match readU32 ts0 with
  | none => none
  | some (magic, ts1) =>
      match readU32 ts1 with
      | none => none
      | some (ver, ts2) =>
          if magic = 0x56444244 ∧ ver = 1 then
            match readU64 ts2 with
            | none => none
            | some (seq, ts3) =>
                match readU64 ts3 with
                | none => none
                | some (_tstamp, ts4) =>
                    match readU64 ts4 with
                    | none => none
                    | some (count, ts5) =>
                        match decEntries count ts5 [] [] 0 with
                        | none => none
                        | some (vm, mm, crc, ts6) =>
                            match readU32 ts6 with
                            | none => none
                            | some (fmagic, ts7) =>
                                match readU32 ts7 with
                                | none => none
                                | some (fcrc, _rest) =>
                                    if fmagic = 0x454E444D ∧ fcrc = crc then
                                      some (vm, mm, seq)
                                    else none
          else none

/-- The vectors accumulated by the loader loop (emplace per entry). -/
def decVAcc : List (String × Vec) → List (String × Vec) → List (String × Vec)
  | accV, [] => accV
  | accV, kv :: t => decVAcc (emplace accV kv.1 kv.2) t

/-- The metadata accumulated by the loader loop (assignment per entry with
non-empty metadata). -/
def decMAcc (mm : List (String × String)) :
    List (String × String) → List (String × Vec) → List (String × String)
  | accM, [] => accM
  | accM, kv :: t =>
      decMAcc mm
        (if ((mapFind mm kv.1).getD "").length ≠ 0 then
          mapSet accM kv.1 ((mapFind mm kv.1).getD "")
         else accM) t

/-- Reading back an encoded length-prefixed string yields the string. -/
theorem readLenStr_enc (s : String) (rest : List Tok) :
    readLenStr (encLenStr s ++ rest) = some (s, rest) := by
  by_cases h : s.length = 0
  · have hs : s = "" := by
      cases s with
      | mk data =>
          simp [String.length] at h
          simp [h]
    subst hs
    simp [encLenStr, readLenStr, readU32]
  · simp [encLenStr, h, readLenStr, readU32]

/-- Reading back an encoded length-prefixed vector yields the vector. -/
theorem readLenF32s_enc (v : Vec) (rest : List Tok) :
    readLenF32s (encLenF32s v ++ rest) = some (v, rest) := by
  by_cases h : v.length = 0
  · have hv : v = [] := List.length_eq_zero.mp h
    subst hv
    simp [encLenF32s, readLenF32s, readU32]
  · simp [encLenF32s, h, readLenF32s, readU32]

/-- Reading back one encoded entry yields the key, the vector, and the
metadata that was written (the metadata-map lookup, empty when absent). -/
theorem decEntry_enc (mm : List (String × String)) (kv : String × Vec)
    (rest : List Tok) :
    decEntry (encEntry mm kv ++ rest)
      = some ((kv.1, kv.2, (mapFind mm kv.1).getD ""), rest) := by
  simp [encEntry, decEntry, List.append_assoc, readLenStr_enc, readLenF32s_enc]

/-- Reading back the encoded body yields the accumulated maps, the folded
checksum, and the remaining stream. -/
theorem decEntries_enc (mm : List (String × String)) :
    ∀ (vm : List (String × Vec)) (rest : List Tok) accV accM crc,
    decEntries vm.length (encEntries mm vm ++ rest) accV accM crc
      = some (decVAcc accV vm, decMAcc mm accM vm, crcAcc mm crc vm, rest) := by
  intro vm
  induction vm with
  | nil =>
      intro rest accV accM crc
      simp [encEntries, decEntries, decVAcc, decMAcc, crcAcc]
  | cons kv t ih =>
      intro rest accV accM crc
      have hsplit : encEntries mm (kv :: t) ++ rest
          = encEntry mm kv ++ (encEntries mm t ++ rest) := by
        simp [encEntries, List.append_assoc]
      rw [List.length_cons, hsplit]
      simp only [decEntries, decEntry_enc]
      rw [ih]
      simp [decVAcc, decMAcc, crcAcc, crcStep]

/-- A lookup that misses the first part of a concatenation falls through to
the second part. -/
theorem mapFind_append_of_none {α : Type} {m1 : List (String × α)} {k : String}
    (h : mapFind m1 k = none) (m2 : List (String × α)) :
    mapFind (m1 ++ m2) k = mapFind m2 k := by
  induction m1 with
  | nil => simp
  | cons kv t ih =>
      obtain ⟨k1, v1⟩ := kv
      by_cases hk : k1 = k
      · simp [mapFind, hk] at h
      · simp only [mapFind, hk, if_false, List.cons_append] at h ⊢
        simp [mapFind, hk] at h ⊢
        exact ih h

/-- Emplace of an absent key appends the binding. -/
theorem emplace_of_none {α : Type} {m : List (String × α)} {k : String}
    (h : mapFind m k = none) (v : α) : emplace m k v = m ++ [(k, v)] := by
  simp [emplace, h]

/-- With pairwise-distinct keys all absent from the accumulator, the loader
loop's emplaces reproduce the encoded list. -/
theorem decVAcc_eq : ∀ (vm accV : List (String × Vec)),
    (∀ kv ∈ vm, mapFind accV kv.1 = none) → keysNodup vm →
    decVAcc accV vm = accV ++ vm := by
  intro vm
  induction vm with
  | nil => intro accV _ _; simp [decVAcc]
  | cons kv t ih =>
      intro accV h hnd
      have h0 : mapFind accV kv.1 = none := h kv (List.mem_cons_self kv t)
      have hnodup := hnd
      unfold keysNodup at hnodup
      rw [List.map_cons, List.nodup_cons] at hnodup
      have h1 : ∀ kv2 ∈ t, mapFind (accV ++ [(kv.1, kv.2)]) kv2.1 = none := by
        intro kv2 hm
        have hne : kv.1 ≠ kv2.1 := by
          intro he
          exact hnodup.1 (he ▸ List.mem_map_of_mem Prod.fst hm)
        rw [mapFind_append_of_none (h kv2 (List.mem_cons_of_mem kv hm))]
        simp [mapFind, hne]
      calc decVAcc accV (kv :: t)
          = decVAcc (emplace accV kv.1 kv.2) t := by simp [decVAcc]
        _ = decVAcc (accV ++ [(kv.1, kv.2)]) t := by rw [emplace_of_none h0]
        _ = (accV ++ [(kv.1, kv.2)]) ++ t := ih _ h1 hnodup.2
        _ = accV ++ (kv :: t) := by simp

/-- What the loader loop's metadata map looks up to: the written metadata
for a key covered by an entry with non-empty metadata, and the accumulator
otherwise. -/
theorem decMAcc_find (mm : List (String × String)) :
    ∀ (vm : List (String × Vec)) (accM : List (String × String)) (k : String),
    mapFind (decMAcc mm accM vm) k =
      if k ∈ vm.map Prod.fst ∧ ((mapFind mm k).getD "").length ≠ 0
      then some ((mapFind mm k).getD "") else mapFind accM k := by
  intro vm
  induction vm with
  | nil => intro accM k; simp [decMAcc]
  | cons kv t ih =>
      intro accM k
      simp only [decMAcc]
      rw [ih, List.map_cons]
      by_cases hk : kv.1 = k
      · subst hk
        by_cases hm : ((mapFind mm kv.1).getD "").length = 0
        · simp [hm]
        · have hm1 : ((mapFind mm kv.1).getD "").length ≠ 0 := hm
          by_cases ht : kv.1 ∈ t.map Prod.fst
          · simp [ht, hm1]
          · simp [ht, hm1, mapFind_mapSet_self]
      · have hacc : mapFind
            (if ((mapFind mm kv.1).getD "").length ≠ 0 then
              mapSet accM kv.1 ((mapFind mm kv.1).getD "")
             else accM) k = mapFind accM k := by
          by_cases hmv : ((mapFind mm kv.1).getD "").length = 0
          · simp [hmv]
          · have hmv1 : ((mapFind mm kv.1).getD "").length ≠ 0 := hmv
            rw [if_pos hmv1]
            exact mapFind_mapSet_ne accM (fun he => hk he.symm) _
        rw [hacc]
        have hiff : k ∈ kv.1 :: t.map Prod.fst ↔ k ∈ t.map Prod.fst := by
          rw [List.mem_cons]
          constructor
          · rintro (he | hin)
            · exact absurd he.symm hk
            · exact hin
          · exact Or.inr
        simp only [hiff]

/-- A successful lookup produces a binding that is in the list. -/
theorem mapFind_mem {α : Type} :
    ∀ {m : List (String × α)} {k : String} {v : α},
    mapFind m k = some v → (k, v) ∈ m := by
  intro m
  induction m with
  | nil => intro k v h; simp [mapFind] at h
  | cons kv t ih =>
      intro k v h
      obtain ⟨k1, v1⟩ := kv
      by_cases hk : k1 = k
      · subst hk
        simp [mapFind] at h
        simp [h]
      · simp [mapFind, hk] at h
        exact List.mem_cons_of_mem _ (ih h)

/-- A key that looks up successfully is among the keys. -/
theorem mapFind_isSome_mem_keys {α : Type} :
    ∀ {m : List (String × α)} {k : String},
    (mapFind m k).isSome = true → k ∈ m.map Prod.fst := by
  intro m
  induction m with
  | nil => intro k h; simp [mapFind] at h
  | cons kv t ih =>
      intro k h
      obtain ⟨k1, v1⟩ := kv
      by_cases hk : k1 = k
      · subst hk
        simp
      · simp [mapFind, hk] at h
        rw [List.map_cons]
        exact List.mem_cons_of_mem _ (ih h)

/-- C8 amended: writing a snapshot of a map state and loading it back yields
the same maps, PROVIDED every metadata entry's key is present in the vector
map and carries a non-empty value — which holds for every state a live
database produces, since metadata is only ever stored for inserted keys and
empty metadata is never stored. The header magic and version, the per-entry
encoding and the XOR-fold footer checksum all validate, and the loaded
vector map equals the saved one while the loaded metadata map agrees with
the saved one on every key. -/
theorem c8_snapshot_roundtrip (vm : List (String × Vec))
    (mm : List (String × String)) (seq ts : Nat)
    (hnd : keysNodup vm)
    (hmm : ∀ e ∈ mm, (mapFind vm e.1).isSome = true ∧ e.2.length ≠ 0) :
    loadCheckpoint (saveCheckpointFile vm mm seq ts)
      = some (vm, decMAcc mm [] vm, seq) ∧
    ∀ k, mapFind (decMAcc mm [] vm) k = mapFind mm k := by
  constructor
  · have hdec := decEntries_enc mm vm
      [Tok.u32 0x454E444D, Tok.u32 (crcAcc mm 0 vm)] [] [] 0
    have hv : decVAcc [] vm = vm := by
      have := decVAcc_eq vm [] (fun kv _ => rfl) hnd
      simpa using this
    simp only [saveCheckpointFile, List.cons_append, List.nil_append,
      loadCheckpoint, readU32, readU64, hdec, hv]
    simp
  · intro k
    rw [decMAcc_find]
    cases hfind : mapFind mm k with
    | none => simp [hfind, mapFind]
    | some m =>
        have hme := hmm (k, m) (mapFind_mem hfind)
        have hkeys : k ∈ vm.map Prod.fst := mapFind_isSome_mem_keys hme.1
        simp [hfind, hkeys, hme.2, Option.getD]

/-- Concrete vector map for the C8 witness. -/
def c8_vm : List (String × Vec) := [("a", [1, 2]), ("b", [])]

/-- Concrete metadata map for the C8 witness. -/
def c8_mm : List (String × String) := [("a", "m")]

/-- Witness for the amended C8 theorem at a concrete two-entry state. -/
theorem c8_roundtrip_witness :
    loadCheckpoint (saveCheckpointFile c8_vm c8_mm 5 9)
      = some (c8_vm, decMAcc c8_mm [] c8_vm, 5) ∧
    mapFind (decMAcc c8_mm [] c8_vm) "a" = mapFind c8_mm "a" := by
  have h := c8_snapshot_roundtrip c8_vm c8_mm 5 9 (by decide) (by decide)
  exact ⟨h.1, h.2 "a"⟩

/-- C8 counterexample. For the state with an EMPTY vector map and a
metadata entry for the key b, the snapshot writes no entries (the writer
iterates the vector map only), so loading yields an empty metadata map: the
round trip does not reproduce S for every map state S. -/
theorem c8_counterexample :
    loadCheckpoint (saveCheckpointFile [] [("b", "m")] 0 0) = some ([], [], 0) ∧
    mapFind ([] : List (String × String)) "b" ≠ mapFind [("b", "m")] "b" := by
  constructor
  · rfl
  · decide

/-! The RecoveryStateMachine
(src/src/features/recovery_state_machine.cpp). -/

/-- RecoveryStateMachine::State. -/
inductive RState where
  | uninitialized
  | analyzing
  | clean
  | recoveryNeeded
  | recovering
  | recovered
  | corrupted
  | failed
  | repair
  | ready
  | error
deriving DecidableEq, Fintype

/-- RecoveryStateMachine::canTransition: the switch over the source state,
listing the accepted target states; READY accepts none. -/
def canTransition (src dst : RState) : Bool :=
  match src, dst with
  | .uninitialized, .analyzing => true
  | .analyzing, .clean => true
  | .analyzing, .recoveryNeeded => true
  | .analyzing, .corrupted => true
  | .clean, .ready => true
  | .recoveryNeeded, .recovering => true
  | .recovering, .recovered => true
  | .recovering, .corrupted => true
  | .recovering, .failed => true
  | .recovered, .ready => true
  | .corrupted, .repair => true
  | .corrupted, .failed => true
  | .failed, .error => true
  | .repair, .recovered => true
  | .repair, .failed => true
  | .error, .analyzing => true
  | _, _ => false

/-- Modelled from the spec: the legal-transition table of section 4.8,
written down pair by pair exactly as listed there (READY is terminal and
contributes no pair). Used to compare the code's canTransition against the
spec's table. -/
def specTransitionList : List (RState × RState) :=
  [(.uninitialized, .analyzing),
   (.analyzing, .clean), (.analyzing, .recoveryNeeded), (.analyzing, .corrupted),
   (.clean, .ready),
   (.recoveryNeeded, .recovering),
   (.recovering, .recovered), (.recovering, .corrupted), (.recovering, .failed),
   (.recovered, .ready),
   (.corrupted, .repair), (.corrupted, .failed),
   (.repair, .recovered), (.repair, .failed),
   (.failed, .error),
   (.error, .analyzing)]

/-- Membership in the spec's transition table. -/
def specLegalTransition (src dst : RState) : Bool :=
  decide ((src, dst) ∈ specTransitionList)

/-- RecoveryStateMachine::transitionTo: move to the target when
canTransition accepts it, otherwise log the programmer error and leave the
current state unchanged. -/
def transitionTo (cur tgt : RState) : RState :=
  if canTransition cur tgt then tgt else cur

/-- C10. The code's transition guard coincides with the spec's table at
every pair of states, and transitionTo changes the state exactly on the
table's transitions (moving to the target) while every attempt outside the
table leaves the current state unchanged; in particular ANALYZING can move
only to CLEAN, RECOVERY_NEEDED or CORRUPTED, and READY is terminal. Since
every state change goes through transitionTo, a machine starting at
UNINITIALIZED only ever moves along the table. -/
theorem c10_recovery_transitions :
    ∀ src dst : RState, canTransition src dst = specLegalTransition src dst ∧
      transitionTo src dst = (if specLegalTransition src dst = true then dst else src) := by
  decide

end VDB
